import Mathlib

/-!
Verification development for the LightClear repository.

The repository consists of two PySide6 GUI applications
(`speech_enhance_gui.py`, `speech_enhance_compare_gui_v2.py`) and two demo
scripts (`demo/demo_se.py`, `demo/demo_with_more_comments.py`).  The code the
repository itself owns is: the `AudioAnalyzer` metric computations, the
`AudioEnhancementWorker.run` signal protocol, the output-file naming rule,
and the GUI button/worker wiring.  Audio sample values (Python floats) are
modelled as rationals; the irrational library functions `np.sqrt`,
`np.log10` are kept symbolic in computable definitions and interpreted into
`EReal` by separate interpretation functions.
-/

namespace LightClear

/-- Arithmetic mean of a list of rationals, modelling `np.mean` over a 1-d
float array.  (`np.mean` of an empty array yields NaN; in this model the
rational division by zero yields `0`, and claims whose value depends on it
carry nonemptiness hypotheses.) -/
def meanQ (l : List ℚ) : ℚ := l.sum / (l.length : ℚ)

/-! ## `AudioAnalyzer.calculate_snr`
Source: `speech_enhance_compare_gui_v2.py`, lines 54-72. -/

/-- Signal power of `AudioAnalyzer.calculate_snr`: both arrays are truncated
to the length of the shorter one and the mean of the squared clean samples is
taken (`np.mean(clean_audio ** 2)`, line 63). -/
def signalPowerQ (clean noisy : List ℚ) : ℚ :=
  meanQ ((clean.take (min clean.length noisy.length)).map (fun x => x ^ 2))

/-- Noise power of `AudioAnalyzer.calculate_snr`: after truncation the noise
is `noisy - clean` elementwise (line 62) and its mean square is taken
(`np.mean(noise ** 2)`, line 64). -/
def noisePowerQ (clean noisy : List ℚ) : ℚ :=
  meanQ ((List.zipWith (fun c y => y - c)
    (clean.take (min clean.length noisy.length))
    (noisy.take (min clean.length noisy.length))).map (fun x => x ^ 2))

/-- Result of `AudioAnalyzer.calculate_snr`: either `float('inf')` (line 67)
or the finite value `10 * np.log10(ratio)` (line 69), kept symbolically as
the rational `ratio = signal_power / noise_power` so that the function stays
computable; `SNRResult.toEReal` interprets it. -/
inductive SNRResult where
  | inf : SNRResult
  | val : ℚ → SNRResult
deriving DecidableEq

/-- Model of `AudioAnalyzer.calculate_snr` (lines 54-72): truncate both
inputs to the shorter length, form `noise = noisy - clean`, return infinity
when the noise power is exactly zero and otherwise the (symbolic)
`10*log10(signal_power/noise_power)`.  The `except` clause of the source
(return `0`) has no counterpart because every operation in the body is total
in this model. -/
def calculate_snr (clean noisy : List ℚ) : SNRResult :=
  if noisePowerQ clean noisy = 0 then .inf
  else .val (signalPowerQ clean noisy / noisePowerQ clean noisy)

/-- Interpretation of an `SNRResult` as an extended real: `inf` is `⊤`, and
a finite result `val r` is `10 * log10 r`, with numpy's convention
`log10 0 = -inf` (a zero ratio arises when the clean signal has zero power). -/
noncomputable def SNRResult.toEReal : SNRResult → EReal
  | .inf => ⊤
  | .val r => if r = 0 then ⊥ else (((10 : ℝ) * Real.logb 10 (r : ℝ) : ℝ) : EReal)

/-! ## Model of `librosa.feature.zero_crossing_rate`
The metric computation at `speech_enhance_compare_gui_v2.py` lines 100-101
calls `np.mean(librosa.feature.zero_crossing_rate(audio))` with librosa's
default parameters: `frame_length=2048`, `hop_length=512`, `center=True`
(edge padding by `frame_length//2` on each side), crossing threshold
`1e-10`, zeros counted as positive (`np.signbit`), and `pad=False` so each
frame contributes the count of sign changes between its consecutive samples
divided by the frame length. -/

/-- Threshold `1e-10` below which `librosa.zero_crossings` clips a sample to
zero before taking its sign bit. -/
def epsQ : ℚ := 1 / 10000000000

/-- Clipping step of `librosa.zero_crossings`: samples with magnitude at
most the threshold are replaced by zero. -/
def clipSmall (x : ℚ) : ℚ := if |x| ≤ epsQ then 0 else x

/-- Model of `np.signbit`: true exactly on negative samples; zero is
positive (`zero_pos=True`). -/
def signbitQ (x : ℚ) : Bool := x < 0

/-- Number of positions at which consecutive entries of a boolean list
differ, modelling `np.diff` on a sign-bit array followed by counting. -/
def countSignChanges : List Bool → ℕ
  | [] => 0
  | [_] => 0
  | a :: b :: t => (if a = b then 0 else 1) + countSignChanges (b :: t)

/-- Edge padding of `np.pad(y, n, mode="edge")`: `n` copies of the first
sample in front and `n` copies of the last sample behind. -/
def edgePad (n : ℕ) (y : List ℚ) : List ℚ :=
  List.replicate n (y.headD 0) ++ y ++ List.replicate n (y.getLast?.getD 0)

/-- Frame start indices of `librosa.util.frame` for a signal of length
`len ≥ 2048`: frames begin every 512 samples and each is 2048 samples long. -/
def frameStarts (len : ℕ) : List ℕ := List.range (1 + (len - 2048) / 512)

/-- The 2048-sample frame of `y` starting at hop index `i`. -/
def frameAt (y : List ℚ) (i : ℕ) : List ℚ := (y.drop (512 * i)).take 2048

/-- Per-frame zero-crossing rate: the number of sign-bit changes between
consecutive samples of the frame, divided by the frame length 2048. -/
def frameZcr (fr : List ℚ) : ℚ :=
  (countSignChanges (fr.map (fun x => signbitQ (clipSmall x))) : ℚ) / 2048

/-- Model of `librosa.feature.zero_crossing_rate(y)` with default
parameters: edge-pad by 1024 on each side, then the list of per-frame
zero-crossing rates over 2048-sample frames hopped by 512. -/
def zero_crossing_rate (y : List ℚ) : List ℚ :=
  (frameStarts (edgePad 1024 y).length).map (fun i => frameZcr (frameAt (edgePad 1024 y) i))

/-- The scalar reported by `calculate_audio_metrics` (lines 100-101):
`np.mean` of the framewise zero-crossing rates. -/
def zcrMean (y : List ℚ) : ℚ := meanQ (zero_crossing_rate y)

/-- Spec-side definition (from the glossary: "fraction of samples where the
signal changes sign"): the number of consecutive-sample sign changes in the
whole signal divided by the number of samples. -/
def signChangeFraction (y : List ℚ) : ℚ :=
  (countSignChanges (y.map signbitQ) : ℚ) / (y.length : ℚ)

/-! ## `AudioAnalyzer.calculate_audio_metrics`
Source: `speech_enhance_compare_gui_v2.py`, lines 74-110.  The function
fills a dict inside a `try` block; the dict is modelled as an association
list in assignment order.  The only operations in the body that can raise on
ordinary float-array inputs are `len(original)/sr` for `sr = 0`
(`ZeroDivisionError`) and `np.max` on an empty array (`ValueError`); the
`except` clause then returns the partially filled dict, which the branches
below reproduce. -/

/-- Peak amplitude `np.max(np.abs(y))` (lines 88-89), modelled as the fold
of `max` over the absolute values starting from `0` (equal to the true
maximum on a nonempty list because absolute values are nonnegative). -/
def peakQ (y : List ℚ) : ℚ := (y.map (fun x => |x|)).foldr max 0

/-- Value stored in the metrics dict, kept symbolic where the source applies
an irrational library function: `q` is an exact rational, `sqrtQ r` stands
for `np.sqrt(r)` (RMS, lines 84-85), `dynQ r` stands for
`20 * np.log10(r)` (dynamic range, lines 92-93), `snr` is a
`calculate_snr` result (line 96), and `cent y sr` stands for the external
library call `np.mean(librosa.feature.spectral_centroid(y, sr))`
(lines 104-105), which is left uninterpreted. -/
inductive MVal where
  | q : ℚ → MVal
  | sqrtQ : ℚ → MVal
  | dynQ : ℚ → MVal
  | snr : SNRResult → MVal
  | cent : List ℚ → ℚ → MVal

/-- Interpretation of a metric value as an extended real.  The parameter
`cfn` interprets the external spectral-centroid library call.  `dynQ r` is
`20*log10 r` with numpy's `log10 0 = -inf` convention (the ratio is never
negative: it is a peak divided by `mean |y| + 1e-10`). -/
noncomputable def MVal.toEReal (cfn : List ℚ → ℚ → EReal) : MVal → EReal
  | .q r => ((r : ℝ) : EReal)
  | .sqrtQ r => ((Real.sqrt (r : ℝ) : ℝ) : EReal)
  | .dynQ r => if r = 0 then ⊥ else (((20 : ℝ) * Real.logb 10 (r : ℝ) : ℝ) : EReal)
  | .snr s => s.toEReal
  | .cent y sr => cfn y sr

/-- Entries assigned before the first `np.max` call: duration (line 81) and
the two RMS energies (lines 84-85). -/
def baseMetrics (o e : List ℚ) (sr : ℚ) : List (String × MVal) :=
  [("duration", MVal.q ((o.length : ℚ) / sr)),
   ("original_rms", MVal.sqrtQ (meanQ (o.map (fun x => x ^ 2)))),
   ("enhanced_rms", MVal.sqrtQ (meanQ (e.map (fun x => x ^ 2))))]

/-- Model of `AudioAnalyzer.calculate_audio_metrics` (lines 74-110).  On the
success path (nonzero sample rate, both signals nonempty) the dict holds, in
assignment order: duration, RMS, peaks, dynamic ranges, the SNR improvement
`calculate_snr(enhanced, original)` (line 96), the framewise zero-crossing
rates, and the spectral centroids.  With `sr = 0` the `duration` assignment
raises and the empty dict is returned; with an empty signal the
corresponding `np.max` raises and the entries assigned so far are returned. -/
def calculate_audio_metrics (o e : List ℚ) (sr : ℚ) : List (String × MVal) :=
  if sr = 0 then []
  else if o = [] then baseMetrics o e sr
  else if e = [] then baseMetrics o e sr ++ [("original_peak", MVal.q (peakQ o))]
  else baseMetrics o e sr ++
    [("original_peak", MVal.q (peakQ o)),
     ("enhanced_peak", MVal.q (peakQ e)),
     ("original_dynamic_range", MVal.dynQ (peakQ o / (meanQ (o.map (fun x => |x|)) + epsQ))),
     ("enhanced_dynamic_range", MVal.dynQ (peakQ e / (meanQ (e.map (fun x => |x|)) + epsQ))),
     ("snr_improvement", MVal.snr (calculate_snr e o)),
     ("original_zcr", MVal.q (zcrMean o)),
     ("enhanced_zcr", MVal.q (zcrMean e)),
     ("original_spectral_centroid", MVal.cent o sr),
     ("enhanced_spectral_centroid", MVal.cent e sr)]

/-- Key list of the metrics dict. -/
def metricKeys (o e : List ℚ) (sr : ℚ) : List String :=
  (calculate_audio_metrics o e sr).map Prod.fst

/-- Keys corresponding to the statistics named by the claim "RMS, peak,
zero-crossing rate, spectral centroid, and SNR via simple subtraction". -/
def claimedMetricKeys : List String :=
  ["original_rms", "enhanced_rms", "original_peak", "enhanced_peak",
   "original_zcr", "enhanced_zcr",
   "original_spectral_centroid", "enhanced_spectral_centroid",
   "snr_improvement"]

/-! ## Output-file naming
Sources: `speech_enhance_compare_gui_v2.py` lines 513-521,
`speech_enhance_gui.py` lines 84-91, `demo/demo_se.py` lines 23-27.
A file path is modelled by its parsed components: parent directory (empty
string when the path is a bare file name), stem (final component without the
last extension, `Path.stem` / first part of `os.path.splitext`), and
extension including the leading dot, empty when there is none (`Path.suffix`
/ second part of `os.path.splitext`; the two agree on these components). -/

structure AudioPath where
  dir : String
  stem : String
  ext : String

/-- Joining a directory and a file name, as both `os.path.join(d, f)` for a
nonempty normalized `d` and `str(Path(d) / f)` produce; for `d = ""`
(`os.path.dirname` of a bare name, equivalently `Path(name).parent = "."`
under pathlib normalization) the result is the bare file name. -/
def joinPath (d f : String) : String := if d = "" then f else d ++ "/" ++ f

/-- Output path of `AudioEnhancementWorker.run` in
`speech_enhance_compare_gui_v2.py` (lines 513-521): the file name is
`stem + '_enhanced' + suffix`; it is placed in `output_dir` when one was
given (`if self.output_dir:`) and otherwise next to the input file. -/
def workerOutputPathV2 (p : AudioPath) (outputDir : Option String) : String :=
  match outputDir with
  | some d => joinPath d (p.stem ++ "_enhanced" ++ p.ext)
  | none => joinPath p.dir (p.stem ++ "_enhanced" ++ p.ext)

/-- Output path of `AudioEnhancementWorker.run` in `speech_enhance_gui.py`
(lines 84-91); the code is identical to the v2 worker's. -/
def workerOutputPathV1 (p : AudioPath) (outputDir : Option String) : String :=
  match outputDir with
  | some d => joinPath d (p.stem ++ "_enhanced" ++ p.ext)
  | none => joinPath p.dir (p.stem ++ "_enhanced" ++ p.ext)

/-- Output path of `demo/demo_se.py` (lines 23-27): built with
`os.path.dirname` / `os.path.splitext` and always placed in the input
file's directory. -/
def demoOutputPath (p : AudioPath) : String :=
  joinPath p.dir (p.stem ++ "_enhanced" ++ p.ext)

/-! ## `AudioEnhancementWorker.run`
Sources: `speech_enhance_compare_gui_v2.py` lines 476-538 and
`speech_enhance_gui.py` lines 46-109; the two bodies are identical.  The
external calls that can raise are abstracted as boolean outcomes: the
`clearvoice` import, the `ClearVoice(...)` constructor, the model call
`self.cv_se(...)`, and `self.cv_se.write(...)`.  Wall-clock time statistics
are abstracted away; status-message texts are abbreviated. -/

/-- Outcome environment for one run of the worker thread. -/
structure WorkerEnv where
  importOk : Bool
  loadOk : Bool
  processOk : Bool
  writeOk : Bool
  inputPath : AudioPath
  outputDir : Option String

/-- Qt signals emitted by the worker, in emission order. -/
inductive Sig where
  | progress : ℕ → Sig
  | status : String → Sig
  | finished : String → Sig
  | error : String → Sig

/-- Trace of signals emitted by one run of `AudioEnhancementWorker.run`.
When the import fails, `error_occurred` is emitted and the method returns
(lines 479-484).  Otherwise the run emits status/progress pairs at 20, 50
and 80, and on full success `progress 100`, a final status, and
`finished_processing` with the output path (lines 533-535); any exception
jumps to the `except` clause which emits `error_occurred` (lines 537-538). -/
def workerRun (env : WorkerEnv) : List Sig :=
  if !env.importOk then [.error "import failed"]
  else
    [.status "loading model", .progress 20] ++
    if !env.loadOk then [.error "exception"]
    else
      [.status "processing", .progress 50] ++
      if !env.processOk then [.error "exception"]
      else
        [.status "saving", .progress 80] ++
        if !env.writeOk then [.error "exception"]
        else
          [.progress 100, .status "done",
           .finished (workerOutputPathV2 env.inputPath env.outputDir)]

/-- Values carried by the `progress_updated` emissions of a trace. -/
def progressValues (l : List Sig) : List ℕ :=
  l.filterMap (fun s => match s with | .progress n => some n | _ => none)

/-- A signal is terminal when it is `finished_processing` or
`error_occurred`. -/
def isTerminalSig : Sig → Bool
  | .finished _ => true
  | .error _ => true
  | _ => false

/-- All four external calls of a run succeed. -/
def WorkerEnv.allOk (env : WorkerEnv) : Prop :=
  env.importOk = true ∧ env.loadOk = true ∧ env.processOk = true ∧ env.writeOk = true

/-! ## GUI button/worker state machine
Sources: `SpeechEnhanceGUI` in both files; the fields relevant to worker
creation behave identically (`speech_enhance_compare_gui_v2.py` lines
544-552, 608-632, 760-765, 777-801, 812-826, 857-863 and
`speech_enhance_gui.py` lines 115-121, 180-205, 355-410, 421-457).
The state tracks whether an input file has been chosen, whether the process
button is enabled, and how many worker threads have been started and not yet
terminated. -/

structure GuiState where
  inputSelected : Bool
  btnEnabled : Bool
  active : ℕ

/-- State after `__init__` / `setup_ui`: no input chosen, process button
disabled (`self.process_btn.setEnabled(False)`), no worker. -/
def initialGuiState : GuiState := ⟨false, false, 0⟩

/-- User and worker events that touch these fields.  `selectInput` is a
successful file choice in `select_input_file` (a cancelled dialog changes
nothing); `clickProcess` is a click on the process button, possible only
while it is enabled; `workerFinished` / `workerError` are the worker's
terminal signals delivered to `on_processing_finished` /
`on_error_occurred`. -/
inductive GuiEvent where
  | selectInput
  | clickProcess
  | workerFinished
  | workerError

/-- Transition function.  `select_input_file` stores the path and enables
the process button unconditionally (lines 760-764 / 364-368) — also while a
worker is running.  `start_processing` returns early when no input is
chosen, otherwise disables the button and starts a new worker thread
(lines 777-801 / 385-410).  Both terminal callbacks re-enable the button
(lines 812-815 / 857-861). -/
def guiStep (s : GuiState) (e : GuiEvent) : GuiState :=
  match e with
  | .selectInput => { s with inputSelected := true, btnEnabled := true }
  | .clickProcess =>
      if s.btnEnabled then
        if s.inputSelected then { s with btnEnabled := false, active := s.active + 1 }
        else s
      else s
  | .workerFinished => { s with btnEnabled := true, active := s.active - 1 }
  | .workerError => { s with btnEnabled := true, active := s.active - 1 }

/-- Run a sequence of events from a state. -/
def runEvents : GuiState → List GuiEvent → GuiState
  | s, [] => s
  | s, e :: t => runEvents (guiStep s e) t

/-- Reachability restricted to users who never select a new input file
while a worker is running; all other events are unrestricted. -/
inductive ReachIdleSelect : GuiState → Prop where
  | init : ReachIdleSelect initialGuiState
  | step (s : GuiState) (e : GuiEvent) : ReachIdleSelect s →
      (e = .selectInput → s.active = 0) → ReachIdleSelect (guiStep s e)

/-! ## Helper lemmas -/

/-- Unfolding of the metrics dict on the success path. -/
theorem calculate_audio_metrics_full (o e : List ℚ) (sr : ℚ)
    (ho : o ≠ []) (he : e ≠ []) (hsr : sr ≠ 0) :
    calculate_audio_metrics o e sr = baseMetrics o e sr ++
      [("original_peak", MVal.q (peakQ o)),
       ("enhanced_peak", MVal.q (peakQ e)),
       ("original_dynamic_range", MVal.dynQ (peakQ o / (meanQ (o.map (fun x => |x|)) + epsQ))),
       ("enhanced_dynamic_range", MVal.dynQ (peakQ e / (meanQ (e.map (fun x => |x|)) + epsQ))),
       ("snr_improvement", MVal.snr (calculate_snr e o)),
       ("original_zcr", MVal.q (zcrMean o)),
       ("enhanced_zcr", MVal.q (zcrMean e)),
       ("original_spectral_centroid", MVal.cent o sr),
       ("enhanced_spectral_centroid", MVal.cent e sr)] := by
  unfold calculate_audio_metrics
  rw [if_neg hsr, if_neg ho, if_neg he]

/-- Every member of a list is bounded by its `max`-fold. -/
theorem le_foldr_max (l : List ℚ) : ∀ x ∈ l, x ≤ l.foldr max 0 := by
  induction l with
  | nil => simp
  | cons a t ih =>
      intro x hx
      rcases List.mem_cons.mp hx with h | h
      · subst h; exact le_max_left _ _
      · exact le_trans (ih x h) (le_max_right _ _)

/-- The `max`-fold of a nonempty list of nonnegative rationals is one of its
members. -/
theorem foldr_max_mem (l : List ℚ) (hne : l ≠ []) (hnn : ∀ x ∈ l, 0 ≤ x) :
    l.foldr max 0 ∈ l := by
  induction l with
  | nil => cases hne rfl
  | cons a t ih =>
      cases t with
      | nil =>
          have ha : max a 0 = a := max_eq_left (hnn a (List.mem_cons_self a []))
          simp [ha]
      | cons b u =>
          have hm := ih (by simp) (fun x hx => hnn x (List.mem_cons_of_mem a hx))
          show max a ((b :: u).foldr max 0) ∈ a :: b :: u
          rcases le_total a ((b :: u).foldr max 0) with h | h
          · rw [max_eq_right h]; exact List.mem_cons_of_mem a hm
          · rw [max_eq_left h]; exact List.mem_cons_self a _

/-- `peakQ` is the maximum of the absolute sample values of a nonempty
signal. -/
theorem peakQ_is_abs_max (y : List ℚ) (hy : y ≠ []) :
    (∀ x ∈ y, |x| ≤ peakQ y) ∧ ∃ x ∈ y, |x| = peakQ y := by
  constructor
  · intro x hx
    exact le_foldr_max _ _ (List.mem_map_of_mem _ hx)
  · have hmem := foldr_max_mem (y.map (fun x => |x|)) (by simpa using hy)
      (by intro x hx; rcases List.mem_map.mp hx with ⟨z, _, rfl⟩; exact abs_nonneg z)
    rcases List.mem_map.mp hmem with ⟨z, hz, hzeq⟩
    exact ⟨z, hz, hzeq⟩

/-- Dropping a repeated leading value does not change the number of sign
changes. -/
theorem countSignChanges_replicate_append (n : ℕ) (a : Bool) (l : List Bool) :
    countSignChanges (List.replicate (n + 1) a ++ l) = countSignChanges (a :: l) := by
  induction n with
  | zero => rfl
  | succ k ih =>
      have h1 : List.replicate (k + 2) a ++ l = a :: a :: (List.replicate k a ++ l) := by
        simp [List.replicate_succ]
      have h2 : a :: (List.replicate k a ++ l) = List.replicate (k + 1) a ++ l := by
        simp [List.replicate_succ]
      rw [h1, show countSignChanges (a :: a :: (List.replicate k a ++ l)) =
        countSignChanges (a :: (List.replicate k a ++ l)) by simp [countSignChanges], h2, ih]

/-- A constant list has no sign changes. -/
theorem countSignChanges_replicate (n : ℕ) (a : Bool) :
    countSignChanges (List.replicate n a) = 0 := by
  cases n with
  | zero => rfl
  | succ k =>
      have h := countSignChanges_replicate_append k a []
      simpa [countSignChanges] using h

/-- Invariant of the restricted GUI transition system: at most one worker is
active, and the process button is enabled only while no worker runs. -/
theorem guiInvariant (s : GuiState) (h : ReachIdleSelect s) :
    s.active ≤ 1 ∧ (s.btnEnabled = true → s.active = 0) := by
  induction h with
  | init => exact ⟨by decide, fun _ => rfl⟩
  | step s e hs hguard ih =>
      rcases ih with ⟨hle, hbtn⟩
      cases e with
      | selectInput =>
          have h0 : s.active = 0 := hguard rfl
          exact ⟨by simp [guiStep, h0], fun _ => by simp [guiStep, h0]⟩
      | clickProcess =>
          by_cases hb : s.btnEnabled = true
          · by_cases hi : s.inputSelected = true
            · have h0 : s.active = 0 := hbtn hb
              refine ⟨by simp [guiStep, hb, hi, h0], ?_⟩
              intro hfalse
              simp [guiStep, hb, hi] at hfalse
            · have heq : guiStep s .clickProcess = s := by simp [guiStep, hb, hi]
              rw [heq]
              exact ⟨hle, hbtn⟩
          · have heq : guiStep s .clickProcess = s := by simp [guiStep, hb]
            rw [heq]
            exact ⟨hle, hbtn⟩
      | workerFinished =>
          refine ⟨le_trans (Nat.sub_le _ _) hle, fun _ => ?_⟩
          show s.active - 1 = 0
          omega
      | workerError =>
          refine ⟨le_trans (Nat.sub_le _ _) hle, fun _ => ?_⟩
          show s.active - 1 = 0
          omega

/-! ## Claim theorems -/

/-- C1: for every pair of audio arrays, `AudioAnalyzer.calculate_snr`
truncates both to the shorter length, takes the noise to be
`noisy - clean`, and (whenever both powers are nonzero, so that the
logarithm's argument is defined and positive) returns
`10 * log10(mean(clean^2) / mean((noisy - clean)^2))`. -/
theorem snr_is_log_power_ratio (clean noisy : List ℚ)
    (hn : noisePowerQ clean noisy ≠ 0) (hs : signalPowerQ clean noisy ≠ 0) :
    (calculate_snr clean noisy).toEReal =
      (((10 : ℝ) * Real.logb 10
        ((meanQ ((clean.take (min clean.length noisy.length)).map (fun x => x ^ 2)) : ℝ) /
         (meanQ ((List.zipWith (fun c y => y - c)
            (clean.take (min clean.length noisy.length))
            (noisy.take (min clean.length noisy.length))).map (fun x => x ^ 2)) : ℝ)) : ℝ) : EReal) := by
  unfold calculate_snr
  rw [if_neg hn]
  show SNRResult.toEReal (.val (signalPowerQ clean noisy / noisePowerQ clean noisy)) = _
  simp only [SNRResult.toEReal]
  rw [if_neg (div_ne_zero hs hn)]
  have hcast : ((signalPowerQ clean noisy / noisePowerQ clean noisy : ℚ) : ℝ) =
      ((signalPowerQ clean noisy : ℝ) / (noisePowerQ clean noisy : ℝ)) := by
    push_cast
    ring
  rw [hcast]
  rfl

/-- Witness for C1 at clean = [1], noisy = [3]: signal power 1, noise power 4. -/
theorem snr_is_log_power_ratio_witness :
    noisePowerQ [1] [3] ≠ 0 ∧ signalPowerQ [1] [3] ≠ 0 ∧
    (calculate_snr [1] [3]).toEReal =
      (((10 : ℝ) * Real.logb 10
        ((meanQ ((([1] : List ℚ).take (min ([1] : List ℚ).length ([3] : List ℚ).length)).map (fun x => x ^ 2)) : ℝ) /
         (meanQ ((List.zipWith (fun c y => y - c)
            (([1] : List ℚ).take (min ([1] : List ℚ).length ([3] : List ℚ).length))
            (([3] : List ℚ).take (min ([1] : List ℚ).length ([3] : List ℚ).length))).map (fun x => x ^ 2)) : ℝ)) : ℝ) : EReal) :=
  ⟨by norm_num [noisePowerQ, meanQ], by norm_num [signalPowerQ, meanQ],
   snr_is_log_power_ratio [1] [3] (by norm_num [noisePowerQ, meanQ])
     (by norm_num [signalPowerQ, meanQ])⟩

/-- C10: `AudioAnalyzer.calculate_snr` is a total function in this model
(no operation in its body can fail), and when the noise power
`mean((noisy - clean)^2)` is exactly zero it returns positive infinity. -/
theorem snr_zero_noise_is_inf (clean noisy : List ℚ)
    (h : noisePowerQ clean noisy = 0) : calculate_snr clean noisy = .inf := by
  unfold calculate_snr
  rw [if_pos h]

/-- Witness for C10 at clean = noisy = [1]: the noise is identically zero. -/
theorem snr_zero_noise_is_inf_witness :
    noisePowerQ [1] [1] = 0 ∧ calculate_snr [1] [1] = .inf :=
  ⟨by norm_num [noisePowerQ, meanQ],
   snr_zero_noise_is_inf [1] [1] (by norm_num [noisePowerQ, meanQ])⟩

/-- C8: for every parsed input path, the enhanced-audio output file name is
the input stem with `_enhanced` appended followed by the original extension,
placed in the chosen output directory when one was given and otherwise in
the input file's directory; the two GUI workers and the demo script use the
same rule. -/
theorem output_naming_rule (p : AudioPath) (od : Option String) :
    workerOutputPathV2 p od =
      joinPath (od.getD p.dir) (p.stem ++ "_enhanced" ++ p.ext) ∧
    workerOutputPathV1 p od = workerOutputPathV2 p od ∧
    demoOutputPath p = workerOutputPathV2 p none := by
  cases od <;> exact ⟨rfl, rfl, rfl⟩

/-- C4: in every run of `AudioEnhancementWorker.run` the emitted progress
values are an initial segment of `[20, 50, 80, 100]` (hence non-decreasing),
and `100` is emitted exactly when all four external calls succeed, i.e. when
the run completes without an exception. -/
theorem workerRun_progress_sequence (env : WorkerEnv) :
    (∃ k, progressValues (workerRun env) = [20, 50, 80, 100].take k) ∧
    List.Chain' (· ≤ ·) (progressValues (workerRun env)) ∧
    (100 ∈ progressValues (workerRun env) ↔ env.allOk) := by
  rcases env with ⟨i, l, p, w, ip, od⟩
  cases i
  · exact ⟨⟨0, rfl⟩, by simp [workerRun, progressValues],
      by simp [workerRun, progressValues, WorkerEnv.allOk]⟩
  · cases l
    · exact ⟨⟨1, rfl⟩, by simp [workerRun, progressValues],
        by simp [workerRun, progressValues, WorkerEnv.allOk]⟩
    · cases p
      · exact ⟨⟨2, rfl⟩, by simp [workerRun, progressValues],
          by simp [workerRun, progressValues, WorkerEnv.allOk]⟩
      · cases w
        · exact ⟨⟨3, rfl⟩, by simp [workerRun, progressValues],
            by simp [workerRun, progressValues, WorkerEnv.allOk]⟩
        · exact ⟨⟨4, rfl⟩, by simp [workerRun, progressValues],
            by simp [workerRun, progressValues, WorkerEnv.allOk]⟩

/-- C9: every run of `AudioEnhancementWorker.run` emits exactly one terminal
signal; it is `finished_processing` (carrying the output path) exactly when
all external calls succeed, and `error_occurred` exactly otherwise. -/
theorem workerRun_exactly_one_terminal (env : WorkerEnv) :
    (workerRun env).countP isTerminalSig = 1 ∧
    ((∃ pa, Sig.finished pa ∈ workerRun env) ↔ env.allOk) ∧
    ((∃ m, Sig.error m ∈ workerRun env) ↔ ¬ env.allOk) := by
  rcases env with ⟨i, l, p, w, ip, od⟩
  cases i
  · exact ⟨rfl, by simp [workerRun, WorkerEnv.allOk],
      by simp [workerRun, WorkerEnv.allOk]⟩
  · cases l
    · exact ⟨rfl, by simp [workerRun, WorkerEnv.allOk],
        by simp [workerRun, WorkerEnv.allOk]⟩
    · cases p
      · exact ⟨rfl, by simp [workerRun, WorkerEnv.allOk],
          by simp [workerRun, WorkerEnv.allOk]⟩
      · cases w
        · exact ⟨rfl, by simp [workerRun, WorkerEnv.allOk],
            by simp [workerRun, WorkerEnv.allOk]⟩
        · exact ⟨rfl, by simp [workerRun, WorkerEnv.allOk],
            by simp [workerRun, WorkerEnv.allOk]⟩

/-- C3 counterexample: the claim "in every reachable GUI state a second
worker cannot be started while one is running" is false.  Selecting a new
input file while a worker runs re-enables the process button
(`select_input_file` calls `setEnabled(True)` unconditionally), so the
event sequence select, click, select, click yields two concurrently active
worker threads. -/
theorem gui_two_active_workers :
    (runEvents initialGuiState
      [.selectInput, .clickProcess, .selectInput, .clickProcess]).active = 2 := rfl

/-- C3 (amended): provided the user never selects a new input file while a
worker is running, at most one `AudioEnhancementWorker` thread is active in
every reachable GUI state (the process button is re-enabled only by
`finished_processing`, `error_occurred`, or an input-file selection). -/
theorem gui_at_most_one_worker (s : GuiState) (h : ReachIdleSelect s) :
    s.active ≤ 1 :=
  (guiInvariant s h).1

/-- Witness for the amended C3: the state after selecting a file and
clicking the process button is reachable without mid-run selections and has
at most one active worker. -/
theorem gui_at_most_one_worker_witness :
    (runEvents initialGuiState [.selectInput, .clickProcess]).active ≤ 1 :=
  gui_at_most_one_worker _
    (ReachIdleSelect.step (guiStep initialGuiState .selectInput) .clickProcess
      (ReachIdleSelect.step initialGuiState .selectInput ReachIdleSelect.init
        (fun _ => rfl))
      (fun hc => nomatch hc))

/-- C5 counterexample: the metrics dict does not contain only the RMS, peak,
zero-crossing-rate, spectral-centroid and SNR statistics: it also contains
`duration` (line 81) — and likewise the two dynamic-range entries
(lines 92-93). -/
theorem metrics_report_extra_statistics :
    "duration" ∈ metricKeys [1] [1] 1 ∧ "duration" ∉ claimedMetricKeys := by
  constructor
  · unfold metricKeys
    rw [calculate_audio_metrics_full [1] [1] 1 (by simp) (by simp) (by norm_num)]
    simp [baseMetrics]
  · decide

/-- C5 (amended): for every pair of nonempty input signals and nonzero
sample rate, the dict returned by `calculate_audio_metrics` contains exactly
the duration, RMS, peak, dynamic range, SNR-improvement, zero-crossing-rate
and spectral-centroid statistics, in assignment order. -/
theorem metrics_key_list (o e : List ℚ) (sr : ℚ)
    (ho : o ≠ []) (he : e ≠ []) (hsr : sr ≠ 0) :
    metricKeys o e sr =
      ["duration", "original_rms", "enhanced_rms", "original_peak",
       "enhanced_peak", "original_dynamic_range", "enhanced_dynamic_range",
       "snr_improvement", "original_zcr", "enhanced_zcr",
       "original_spectral_centroid", "enhanced_spectral_centroid"] := by
  unfold metricKeys
  rw [calculate_audio_metrics_full o e sr ho he hsr]
  rfl

/-- Witness for the amended C5 at two one-sample signals. -/
theorem metrics_key_list_witness :
    ([1] : List ℚ) ≠ [] ∧ (1 : ℚ) ≠ 0 ∧
    metricKeys [1] [1] 1 =
      ["duration", "original_rms", "enhanced_rms", "original_peak",
       "enhanced_peak", "original_dynamic_range", "enhanced_dynamic_range",
       "snr_improvement", "original_zcr", "enhanced_zcr",
       "original_spectral_centroid", "enhanced_spectral_centroid"] :=
  ⟨by simp, by norm_num, metrics_key_list [1] [1] 1 (by simp) (by simp) (by norm_num)⟩

/-- C6: the `original_rms` and `enhanced_rms` entries of the metrics dict
are the root-mean-square amplitudes `sqrt(mean(x^2))` of the two signals,
for every interpretation `cfn` of the external spectral-centroid call. -/
theorem metrics_rms_sqrt_mean_square (cfn : List ℚ → ℚ → EReal)
    (o e : List ℚ) (sr : ℚ) (ho : o ≠ []) (he : e ≠ []) (hsr : sr ≠ 0) :
    ((calculate_audio_metrics o e sr).lookup "original_rms").map (MVal.toEReal cfn) =
      some ((Real.sqrt ((meanQ (o.map (fun x => x ^ 2)) : ℚ) : ℝ) : ℝ) : EReal) ∧
    ((calculate_audio_metrics o e sr).lookup "enhanced_rms").map (MVal.toEReal cfn) =
      some ((Real.sqrt ((meanQ (e.map (fun x => x ^ 2)) : ℚ) : ℝ) : ℝ) : EReal) := by
  rw [calculate_audio_metrics_full o e sr ho he hsr]
  exact ⟨rfl, rfl⟩

/-- Witness for C6 at two one-sample signals. -/
theorem metrics_rms_sqrt_mean_square_witness :
    ([1] : List ℚ) ≠ [] ∧ (1 : ℚ) ≠ 0 ∧
    (((calculate_audio_metrics [1] [1] 1).lookup "original_rms").map
        (MVal.toEReal (fun _ _ => (0 : EReal))) =
      some ((Real.sqrt ((meanQ (([1] : List ℚ).map (fun x => x ^ 2)) : ℚ) : ℝ) : ℝ) : EReal) ∧
     ((calculate_audio_metrics [1] [1] 1).lookup "enhanced_rms").map
        (MVal.toEReal (fun _ _ => (0 : EReal))) =
      some ((Real.sqrt ((meanQ (([1] : List ℚ).map (fun x => x ^ 2)) : ℚ) : ℝ) : ℝ) : EReal)) :=
  ⟨by simp, by norm_num,
   metrics_rms_sqrt_mean_square (fun _ _ => (0 : EReal)) [1] [1] 1
     (by simp) (by simp) (by norm_num)⟩

/-- C7: the `original_peak` and `enhanced_peak` entries of the metrics dict
are the maxima of the absolute sample values of the two signals. -/
theorem metrics_peak_is_abs_max (o e : List ℚ) (sr : ℚ)
    (ho : o ≠ []) (he : e ≠ []) (hsr : sr ≠ 0) :
    (calculate_audio_metrics o e sr).lookup "original_peak" = some (MVal.q (peakQ o)) ∧
    (calculate_audio_metrics o e sr).lookup "enhanced_peak" = some (MVal.q (peakQ e)) ∧
    ((∀ x ∈ o, |x| ≤ peakQ o) ∧ ∃ x ∈ o, |x| = peakQ o) ∧
    ((∀ x ∈ e, |x| ≤ peakQ e) ∧ ∃ x ∈ e, |x| = peakQ e) := by
  rw [calculate_audio_metrics_full o e sr ho he hsr]
  exact ⟨rfl, rfl, peakQ_is_abs_max o ho, peakQ_is_abs_max e he⟩

/-- Witness for C7 at two one-sample signals. -/
theorem metrics_peak_is_abs_max_witness :
    ([1] : List ℚ) ≠ [] ∧ (1 : ℚ) ≠ 0 ∧
    ((calculate_audio_metrics [1] [1] 1).lookup "original_peak" =
        some (MVal.q (peakQ [1])) ∧
     (calculate_audio_metrics [1] [1] 1).lookup "enhanced_peak" =
        some (MVal.q (peakQ [1])) ∧
     ((∀ x ∈ ([1] : List ℚ), |x| ≤ peakQ [1]) ∧ ∃ x ∈ ([1] : List ℚ), |x| = peakQ [1]) ∧
     ((∀ x ∈ ([1] : List ℚ), |x| ≤ peakQ [1]) ∧ ∃ x ∈ ([1] : List ℚ), |x| = peakQ [1])) :=
  ⟨by simp, by norm_num,
   metrics_peak_is_abs_max [1] [1] 1 (by simp) (by simp) (by norm_num)⟩

/-! ## Evaluation of the zero-crossing model on the two-sample signal
`[1, -1]`, used by the C2 counterexample.  The edge-padded signal is 1025
ones followed by 1025 minus-ones; the single 2048-sample frame contains one
sign change, so the reported rate is `1/2048`, while half of the samples
change sign. -/

theorem replicate_append_pair (n : ℕ) (a b : ℚ) :
    List.replicate n a ++ [a, b] ++ List.replicate n b =
      List.replicate (n + 1) a ++ List.replicate (n + 1) b := by
  rw [List.replicate_succ' n a, List.replicate_succ]
  simp only [List.append_assoc, List.cons_append, List.nil_append]

theorem edgePad_pair :
    edgePad 1024 [(1 : ℚ), -1] =
      List.replicate 1025 (1 : ℚ) ++ List.replicate 1025 (-1 : ℚ) := by
  show List.replicate 1024 (1 : ℚ) ++ [1, -1] ++ List.replicate 1024 (-1 : ℚ) =
    List.replicate 1025 (1 : ℚ) ++ List.replicate 1025 (-1 : ℚ)
  exact replicate_append_pair 1024 1 (-1)

theorem edgePad_pair_length : (edgePad 1024 [(1 : ℚ), -1]).length = 2050 := by
  rw [edgePad_pair]
  simp only [List.length_append, List.length_replicate]

theorem frame_pair :
    frameAt (edgePad 1024 [(1 : ℚ), -1]) 0 =
      List.replicate 1025 (1 : ℚ) ++ List.replicate 1023 (-1 : ℚ) := by
  unfold frameAt
  rw [edgePad_pair, Nat.mul_zero, List.drop_zero, List.take_append_eq_append_take,
    List.length_replicate, List.take_replicate, List.take_replicate,
    min_eq_right (by norm_num : (1025 : ℕ) ≤ 2048),
    show (2048 : ℕ) - 1025 = 1023 from rfl,
    min_eq_left (by norm_num : (1023 : ℕ) ≤ 1025)]

theorem frame_pair_signs :
    (frameAt (edgePad 1024 [(1 : ℚ), -1]) 0).map (fun x => signbitQ (clipSmall x)) =
      List.replicate 1025 false ++ List.replicate 1023 true := by
  have h1 : signbitQ (clipSmall 1) = false := by norm_num [signbitQ, clipSmall, epsQ]
  have h2 : signbitQ (clipSmall (-1)) = true := by norm_num [signbitQ, clipSmall, epsQ]
  rw [frame_pair]
  simp only [List.map_append, List.map_replicate, h1, h2]

theorem frame_pair_count :
    countSignChanges (List.replicate 1025 false ++ List.replicate 1023 true) = 1 := by
  rw [show (1025 : ℕ) = 1024 + 1 from rfl, countSignChanges_replicate_append]
  have h := countSignChanges_replicate 1023 true
  rw [show (1023 : ℕ) = 1022 + 1 from rfl, List.replicate_succ] at h
  rw [show (1023 : ℕ) = 1022 + 1 from rfl, List.replicate_succ]
  show (if (false = true) then 0 else 1) + countSignChanges (true :: List.replicate 1022 true) = 1
  rw [h]
  norm_num

theorem zcrMean_pair : zcrMean [(1 : ℚ), -1] = 1 / 2048 := by
  unfold zcrMean zero_crossing_rate
  rw [edgePad_pair_length, show frameStarts 2050 = [0] from rfl]
  simp only [List.map_cons, List.map_nil]
  unfold frameZcr
  rw [frame_pair_signs, frame_pair_count]
  norm_num [meanQ]

/-- C2 counterexample: on the signal `[1, -1]` the reported zero-crossing
rate is `1/2048` (the librosa frame mean), while the fraction of samples
where the signal changes sign is `1/2`; the two differ, so the reported
value does not equal the sign-change fraction. -/
theorem zcr_not_sign_change_fraction :
    (calculate_audio_metrics [1, -1] [1, -1] 48000).lookup "original_zcr" =
      some (MVal.q (zcrMean [1, -1])) ∧
    zcrMean [1, -1] = 1 / 2048 ∧
    signChangeFraction [1, -1] = 1 / 2 ∧
    ((1 : ℚ) / 2048 ≠ 1 / 2) := by
  refine ⟨?_, zcrMean_pair, ?_, by norm_num⟩
  · rw [calculate_audio_metrics_full [1, -1] [1, -1] 48000 (by simp) (by simp) (by norm_num)]
    rfl
  · have h1 : signbitQ 1 = false := by simp [signbitQ]
    have h2 : signbitQ (-1) = true := by simp [signbitQ]
    norm_num [signChangeFraction, h1, h2, countSignChanges]

/-- C2 (amended): the zero-crossing rates reported by
`calculate_audio_metrics` are the means over librosa's overlapping
edge-padded 2048-sample frames of each frame's fraction of
consecutive-sample sign changes — not the global sign-change fraction. -/
theorem metrics_zcr_is_framed_mean (o e : List ℚ) (sr : ℚ)
    (ho : o ≠ []) (he : e ≠ []) (hsr : sr ≠ 0) :
    (calculate_audio_metrics o e sr).lookup "original_zcr" =
      some (MVal.q (meanQ (zero_crossing_rate o))) ∧
    (calculate_audio_metrics o e sr).lookup "enhanced_zcr" =
      some (MVal.q (meanQ (zero_crossing_rate e))) := by
  rw [calculate_audio_metrics_full o e sr ho he hsr]
  exact ⟨rfl, rfl⟩

/-- Witness for the amended C2 at two one-sample signals. -/
theorem metrics_zcr_is_framed_mean_witness :
    ([1] : List ℚ) ≠ [] ∧ (1 : ℚ) ≠ 0 ∧
    ((calculate_audio_metrics [1] [1] 1).lookup "original_zcr" =
       some (MVal.q (meanQ (zero_crossing_rate [1]))) ∧
     (calculate_audio_metrics [1] [1] 1).lookup "enhanced_zcr" =
       some (MVal.q (meanQ (zero_crossing_rate [1])))) :=
  ⟨by simp, by norm_num,
   metrics_zcr_is_framed_mean [1] [1] 1 (by simp) (by simp) (by norm_num)⟩

end LightClear
